import Mathlib

set_option autoImplicit false

/-!
Verification of the lease-based distributed lock in `lock/distributed.go`
(Invicton-Labs/go-common), together with the helpers it relies on
(`collections.TransformSliceToMapWithErr`, `gensync.Map.LoadOrStore`,
`dateutils.TimeFromUnix`, `numbers.Abs`).

The DynamoDB store is modelled as an association list from the primary-key
value to the stored item; an item is an association list from attribute
(column) name to attribute value, restricted to the two scalar value types
(S and N) that the lock code reads and writes.  Conditional writes evaluate
the exact condition expressions appearing in the source.  Clock reads
(`time.Now()`) become explicit integer parameters carrying UnixNano values.
Go errors are modelled as `Except`/`Option` results; the external
`stackerr` wrappers preserve nil-ness, so wrapping is the identity on the
option structure.
-/

/-- A Go `time.Time` value: either the zero value `time.Time{}` (which the
code uses as "not populated"), or an instant given by its UnixNano value. -/
inductive GoTime where
  | zero
  | fromUnixNano (nano : Int)
deriving DecidableEq, Repr

namespace GoTime

/-- Go `t.After(u)`: strict instant comparison.  Only the case where both
sides come from Unix values is exercised by the modelled code. -/
def after : GoTime → GoTime → Bool
  | .fromUnixNano a, .fromUnixNano b => decide (a > b)
  | _, _ => false

end GoTime

namespace numbers

/-- Signed 64-bit wraparound, for the int64 arithmetic in `numbers.Abs`. -/
def int64Wrap (z : Int) : Int :=
  (z + 9223372036854775808) % 18446744073709551616 - 9223372036854775808

/-- Model of `numbers.Abs` at int64: `if v < 0 { return v * -1 }; return v`,
where the multiplication wraps in int64 (so `Abs(MinInt64) = MinInt64`). -/
def Abs (v : Int) : Int := if v < 0 then int64Wrap (v * -1) else v

end numbers

namespace dateutils

/-- `math.MaxInt32`. -/
def maxInt32 : Int := 2147483647

/-- Model of `dateutils.TimeFromUnix`: parses a Unix timestamp that can be in
seconds, milliseconds, microseconds, or nanoseconds, choosing the unit by
magnitude.  The nanosecond branch is `time.Unix(u/1e9, u%1e9)` with Go
division truncating toward zero. -/
def TimeFromUnix (unix : Int) : GoTime :=
  let u := unix
  let magnitude := numbers.Abs u
  if magnitude ≤ maxInt32 then
    GoTime.fromUnixNano (u * 1000000000)
  else if magnitude ≤ 1000 * maxInt32 then
    -- It is in milliseconds
    GoTime.fromUnixNano (u * 1000000)
  else if magnitude ≤ 10000000 * maxInt32 then
    -- It is in microseconds
    GoTime.fromUnixNano (u * 1000)
  else
    -- It must be in nanoseconds
    GoTime.fromUnixNano (u.tdiv 1000000000 * 1000000000 + u.tmod 1000000000)

end dateutils

/-- Go map assignment `m[k] = v` on an association-list representation:
overwrite the binding for `k` if present, otherwise append it. -/
def mapStore {K V : Type} [DecidableEq K] : List (K × V) → K → V → List (K × V)
  | [], k, v => [(k, v)]
  | (k', v') :: rest, k, v =>
    if k' = k then (k, v) :: rest else (k', v') :: mapStore rest k v

/-- Go map read `m[k]` on the association-list representation. -/
def mapLoad {K V : Type} [DecidableEq K] : List (K × V) → K → Option V
  | [], _ => none
  | (k', v') :: rest, k => if k' = k then some v' else mapLoad rest k

namespace collections

/-- Iteration core of `collections.TransformSliceToMapWithErr`: walk the
slice in order, and on the first transformation error abandon the output map
and return only that error. -/
def transformSliceToMapAux {SliceType MapKeyType MapValueType E : Type}
    [DecidableEq MapKeyType]
    (transformationFunc :
      Nat → SliceType → Except E (MapKeyType × MapValueType)) :
    List SliceType → Nat → List (MapKeyType × MapValueType) →
    Except E (List (MapKeyType × MapValueType))
  | [], _, out => .ok out
  | element :: rest, idx, out =>
    match transformationFunc idx element with
    | .error e => .error e
    | .ok (k, v) => transformSliceToMapAux transformationFunc rest (idx + 1) (mapStore out k v)

/-- Model of `collections.TransformSliceToMapWithErr`: transforms a slice of
elements to a map, allowing the transformation function to return an error
that cancels the execution (the partial map is discarded). -/
def TransformSliceToMapWithErr {SliceType MapKeyType MapValueType E : Type}
    [DecidableEq MapKeyType]
    (input : List SliceType)
    (transformationFunc :
      Nat → SliceType → Except E (MapKeyType × MapValueType)) :
    Except E (List (MapKeyType × MapValueType)) :=
  transformSliceToMapAux transformationFunc input 0 []

end collections

namespace lock

/-- Column-name constants from `lock/distributed.go`. -/
def metaColumn : String := "Metadata"

/-- Column storing the acquisition timestamp. -/
def acquiredColumn : String := "AcquiredUnixNano"

/-- Column storing the CloudWatch logs URL. -/
def logsUrlColumn : String := "LogsUrl"

/-- Column storing the expiry timestamp. -/
def expiresColumn : String := "ExpiresUnixNano"

/-- DynamoDB attribute values, restricted to the two scalar types the lock
code reads and writes (S = string, N = number). -/
inductive AttributeValue where
  | S (value : String)
  | N (value : Int)
deriving DecidableEq, Repr

/-- A DynamoDB item: a map from attribute (column) name to value. -/
abbrev Item := List (String × AttributeValue)

/-- The lock table: a map from primary-key value to the stored item. -/
abbrev Store := List (String × Item)

/-- `attributevalue.Unmarshal` into a Go `string`: succeeds only on S. -/
def unmarshalString : AttributeValue → Option String
  | .S s => some s
  | _ => none

/-- `attributevalue.Unmarshal` into a Go `int64`: succeeds only on N. -/
def unmarshalInt : AttributeValue → Option Int
  | .N n => some n
  | _ => none

/-- The configuration fields of `DistributedLockerConfig` that the lock
logic reads (the table ARN and AWS config are connection plumbing). -/
structure DistributedLockerConfig where
  KeyColumn : String
  VersionColumn : String
deriving DecidableEq, Repr

/-- The concrete `lockData` record backing the `LockData` interface.  Its
accessors (`Key`, `Version`, `Acquired`, `Expires`, `LogsUrl`, `Metadata`,
`Active`) each return the stored field unchanged, so the record itself is
the model of all of them.  `metadata` is kept as its raw JSON text (the
code only decodes it for diagnostics; a decode failure is logged and leaves
the metadata empty, never failing the row). -/
structure lockData where
  key : String
  version : String
  acquired : GoTime
  expires : GoTime
  logsUrl : String
  metadata : String
  active : Bool
deriving DecidableEq, Repr

/-- Model of `distributedLocker.parseLockData`, following the Go decode
sequence field by field.  Fatal decode failures (key, version, acquired,
expires) produce the exact error strings of the source; the optional
logs-URL and metadata fields only log on failure and fall back to the zero
value.  `nowNano` is the `time.Now()` read used for the `active` flag. -/
def parseLockData (cfg : DistributedLockerConfig) (nowNano : Int)
    (item : Item) : Except String lockData :=
  match mapLoad item cfg.KeyColumn with
  | none => .error "No key field in existing lock row"
  | some keyValue =>
    match unmarshalString keyValue with
    | none => .error "Version field in existing lock row is not of expected type"
    | some key =>
      match mapLoad item cfg.VersionColumn with
      | none => .error "No version field in existing lock row"
      | some versionValue =>
        match unmarshalString versionValue with
        | none => .error "Version field in existing lock row is not of expected type"
        | some version =>
          match mapLoad item acquiredColumn with
          | none => .error "No acquired field in existing lock row"
          | some acquiredValue =>
            match unmarshalInt acquiredValue with
            | none => .error "Acquired field in existing lock row is not of expected type"
            | some acquiredUnixNano =>
              match mapLoad item expiresColumn with
              | none => .error "No expires field in existing lock row"
              | some expiresValue =>
                match unmarshalInt expiresValue with
                | none => .error "Expires field in existing lock row is not of expected type"
                | some expiresUnixNano =>
                  let logsUrl :=
                    match mapLoad item logsUrlColumn with
                    | some logsUrlValue => (unmarshalString logsUrlValue).getD ""
                    | none => ""
                  let metadata :=
                    match mapLoad item metaColumn with
                    | some metadataValue => (unmarshalString metadataValue).getD "\x7b\x7d"
                    | none => "\x7b\x7d"
                  let acquired := dateutils.TimeFromUnix acquiredUnixNano
                  let expires := dateutils.TimeFromUnix expiresUnixNano
                  .ok { key, version, acquired, expires, logsUrl, metadata,
                        active := expires.after (GoTime.fromUnixNano nowNano) }

/-- Model of `distributedLocker.getExistingLock`: a consistent `GetItem` for
the key (an absent row yields an empty attribute map, as in the AWS SDK),
then `parseLockData`. -/
def getExistingLock (cfg : DistributedLockerConfig) (store : Store)
    (key : String) (nowNano : Int) : Except String lockData :=
  parseLockData cfg nowNano ((mapLoad store key).getD [])

/-- The `PutItem` condition
`attribute_not_exists(#key_column) OR #expires_column <= :current_time_nano`,
evaluated against the current item stored under the key (`none` when no row
exists; a condition on an absent row sees an empty item, so
`attribute_not_exists` holds).  A missing or non-numeric expires attribute
makes the comparison false, per DynamoDB semantics. -/
def lockPutCondition (cfg : DistributedLockerConfig) (existing : Option Item)
    (nowNano : Int) : Bool :=
  match existing with
  | none => true
  | some item =>
    (mapLoad item cfg.KeyColumn).isNone ||
      (match mapLoad item expiresColumn with
       | some (.N e) => decide (e ≤ nowNano)
       | _ => false)

/-- The `UpdateItem` condition `#version_column = :version`.  On an absent
row the referenced attribute does not exist, so the check fails. -/
def versionGuard (cfg : DistributedLockerConfig) (existing : Option Item)
    (version : String) : Bool :=
  match existing with
  | none => false
  | some item =>
    match mapLoad item cfg.VersionColumn with
    | some (.S v) => v == version
    | _ => false

/-- The guarded update `SET #expires_column = :expires_unix_nano` with
condition `#version_column = :version`, shared by `Unlock` and the
heartbeat renewal.  Returns the updated store on success and `none` on a
`ConditionalCheckFailedException` (in which case nothing is written). -/
def conditionalSetExpires (cfg : DistributedLockerConfig) (store : Store)
    (key version : String) (expiresUnixNano : Int) : Option Store :=
  match mapLoad store key with
  | some item =>
    if versionGuard cfg (some item) version then
      some (mapStore store key (mapStore item expiresColumn (.N expiresUnixNano)))
    else none
  | none => none

/-- `lockDuration := 20 * time.Second`, in nanoseconds. -/
def lockDurationNano : Int := 20 * 1000000000

/-- `heartbeatInterval := lockDuration / 2`. -/
def heartbeatIntervalNano : Int := lockDurationNano / 2

/-- `initialExpiry := time.Now().Add(lockDuration)`: the expiry written by
the acquisition put. -/
def initialExpiryNano (nowNano : Int) : Int := nowNano + lockDurationNano

/-- The expiry written by a heartbeat renewal:
`time.Now().Add(heartbeatInterval).UnixNano()` (note: the interval, not the
lock duration, is added). -/
def heartbeatRenewalExpiryNano (nowNano : Int) : Int :=
  nowNano + heartbeatIntervalNano

/-- The candidate row assembled by `Lock` before the conditional put: key,
acquisition timestamp, initial expiry, the logs URL when running with a
Lambda context, the fresh version, and the marshalled metadata JSON. -/
def lockAttributes (cfg : DistributedLockerConfig)
    (key version metaJson : String) (logsUrl : Option String)
    (nowNano : Int) : Item :=
  let base : Item :=
    [(cfg.KeyColumn, .S key),
     (acquiredColumn, .N nowNano),
     (expiresColumn, .N (initialExpiryNano nowNano))]
  let withLogs :=
    match logsUrl with
    | some url => mapStore base logsUrlColumn (.S url)
    | none => base
  mapStore (mapStore withLogs cfg.VersionColumn (.S version)) metaColumn (.S metaJson)

/-- The outcome of `distributedLocker.Lock`, abstracting the contexts:
`acquired s l` is the `(passthroughCtx, &lock, nil, nil)` return,
`contended e` is the `(ctx, nil, existingLock, nil)` return after a
conditional-check failure, and `readbackFailed err` is the
`(ctx, nil, nil, err)` return when the read-back of the conflicting row
fails. -/
inductive LockResult where
  | acquired (newStore : Store) (newLock : lockData)
  | contended (existingLock : lockData)
  | readbackFailed (err : String)
deriving DecidableEq, Repr

/-- Pure core of `distributedLocker.Lock` against a fault-free store: the
conditional put decides between acquisition and contention.  The version
string and marshalled metadata are passed in (their construction is
modelled separately by `nextLockCount`/`mkVersion`); the `time.Now()`
reads of the call are collapsed into `nowNano`.  On success the returned
`lockData` leaves `expires` at the zero value and fixes `active := true`,
exactly as the composite literal in the source does. -/
def Lock (cfg : DistributedLockerConfig) (store : Store)
    (key version metaJson : String) (logsUrl : Option String)
    (nowNano : Int) : LockResult :=
  let attributes := lockAttributes cfg key version metaJson logsUrl nowNano
  if lockPutCondition cfg (mapLoad store key) nowNano then
    .acquired (mapStore store key attributes)
      { key, version,
        acquired := dateutils.TimeFromUnix nowNano,
        expires := GoTime.zero,
        logsUrl := logsUrl.getD "",
        metadata := metaJson,
        active := true }
  else
    match getExistingLock cfg store key nowNano with
    | .ok existingLock => .contended existingLock
    | .error e => .readbackFailed e

/-- The context-error values `ctx.Err()` can take. -/
inductive CtxErr where
  | canceled
  | deadlineExceeded
deriving DecidableEq, Repr

/-- The errors the heartbeat goroutine can exit with. -/
inductive HeartbeatError where
  /-- The "Distributed lock has been lost" error built after the renewal
  hit a conditional-check failure; carries the read-back row of the new
  holder for diagnostics. -/
  | lockLost (existingLock : lockData)
  /-- The read-back of the conflicting row itself failed; that error is
  returned instead. -/
  | readbackFailed (err : String)
  /-- A store error other than a conditional-check failure, wrapped as-is
  with `stackerr.Wrap`. -/
  | storeFault (err : String)
  /-- `stackerr.Wrap(ctx.Err())` when the unlock context was cancelled with
  the locked flag still set and the original context itself had an error. -/
  | ctxErr (err : CtxErr)
deriving DecidableEq, Repr

/-- The outcome of one wake of the heartbeat loop. -/
inductive HeartbeatStep where
  | exit (err : Option HeartbeatError)
  | renewed (newStore : Store)
deriving DecidableEq, Repr

/-- One iteration of the heartbeat loop in `Lock`.
`unlockDone`: whether `unlockCtx.Done()` is ready, making the select take
the cancellation branch.  `lockedFlag`: `dl.locked.Load()` (the code stores
`true` at creation and never clears it).  `origCtxErr`: `ctx.Err()` of the
context originally passed to `Lock`; `stackerr.Wrap` of a nil error is nil,
modelled by `Option.map`.  `storeFault`: an injected transport error for
the `UpdateItem` call (`none` means the call reaches the table and is
decided by the conditional check). -/
def heartbeatIteration (cfg : DistributedLockerConfig) (store : Store)
    (key version : String) (unlockDone lockedFlag : Bool)
    (origCtxErr : Option CtxErr) (storeFault : Option String)
    (nowNano : Int) : HeartbeatStep :=
  if unlockDone then
    if lockedFlag then
      .exit (origCtxErr.map HeartbeatError.ctxErr)
    else
      .exit none
  else
    match storeFault with
    | some e => .exit (some (.storeFault e))
    | none =>
      match conditionalSetExpires cfg store key version
          (heartbeatRenewalExpiryNano nowNano) with
      | some newStore => .renewed newStore
      | none =>
        match getExistingLock cfg store key nowNano with
        | .ok existingLock => .exit (some (.lockLost existingLock))
        | .error e => .exit (some (.readbackFailed e))

/-- The deferred block of the heartbeat goroutine: the passthrough context
is cancelled exactly when the heartbeat exits with a non-nil error. -/
def passthroughCancelled : Option HeartbeatError → Bool
  | some _ => true
  | none => false

/-- The outcome of `distributedLock.Unlock`. -/
inductive UnlockOutcome where
  /-- The conditional check failed: the "could not unlock distributed lock,
  as it is not currently locked by this process" error. -/
  | notCurrentlyLocked
  /-- The guarded update succeeded; the call returns whatever error the
  heartbeat goroutine exited with (nil when it exited cleanly). -/
  | released (heartbeatErr : Option HeartbeatError)
deriving DecidableEq, Repr

/-- Pure core of `distributedLock.Unlock` against a fault-free store:
cancel the unlock context, wait for the heartbeat (whose result is passed
in as `heartbeatErr`), then issue the conditional update pushing
`expires_at` to `time.Now()`, guarded on the version still matching. -/
def Unlock (cfg : DistributedLockerConfig) (store : Store)
    (key version : String) (nowNano : Int)
    (heartbeatErr : Option HeartbeatError) : Store × UnlockOutcome :=
  match conditionalSetExpires cfg store key version nowNano with
  | some newStore => (newStore, .released heartbeatErr)
  | none => (store, .notCurrentlyLocked)

/-- The three scan variants of `getLocks`. -/
inductive lockType where
  | all
  | active
  | expired
deriving DecidableEq, Repr

/-- The scan `FilterExpression`: none for `all`,
`#expires_column > :current_time_unix_nano` for `active`, and
`#expires_column <= :current_time_unix_nano` for `expired`.  A missing or
non-numeric expires attribute fails both comparisons. -/
def scanFilter (typ : lockType) (nowNano : Int) (item : Item) : Bool :=
  match typ with
  | .all => true
  | .active =>
    match mapLoad item expiresColumn with
    | some (.N e) => decide (e > nowNano)
    | _ => false
  | .expired =>
    match mapLoad item expiresColumn with
    | some (.N e) => decide (e ≤ nowNano)
    | _ => false

/-- Pure core of `distributedLocker.getLocks` (behind `GetAllLocks`,
`GetActiveLocks`, `GetExpiredLocks`): paginated scan of all items with the
filter for the requested type, then `TransformSliceToMapWithErr` keyed by
`lock.Key()`, each row decoded with `parseLockData`. -/
def getLocks (cfg : DistributedLockerConfig) (store : Store)
    (typ : lockType) (nowNano : Int) :
    Except String (List (String × lockData)) :=
  let items := (store.map Prod.snd).filter (scanFilter typ nowNano)
  collections.TransformSliceToMapWithErr items
    (fun _ item => (parseLockData cfg nowNano item).map (fun l => (l.key, l)))

/-- The process-wide `lockCounterMap`: per-key counters.  Each counter is an
`atomic.Int32`, so its value lives in `[-2^31, 2^31)` and wraps. -/
abbrev LockCounterMap := List (String × Int)

/-- Signed 32-bit wraparound for the `atomic.Int32` counter arithmetic. -/
def int32Wrap (z : Int) : Int :=
  (z + 2147483648) % 4294967296 - 2147483648

/-- The counter step of `Lock`:
`lockCounter, _ := lockCounterMap.LoadOrStore(key, &atomic.Int32{})`
(`gensync.Map.LoadOrStore` lazily creates a zero counter on first use) and
`lockCount := lockCounter.Add(1) - 1` (`Add` returns the new value; both
the addition and the subtraction are int32 operations).  Returns the
`lockCount` used in the version string and the updated counter map. -/
def nextLockCount (m : LockCounterMap) (key : String) :
    Int × LockCounterMap :=
  let cur := (mapLoad m key).getD 0
  let added := int32Wrap (cur + 1)
  (int32Wrap (added - 1), mapStore m key added)

/-- `version := fmt.Sprintf("%s-%d", lockerId, lockCount)`. -/
def mkVersion (lockerId : String) (lockCount : Int) : String :=
  lockerId ++ "-" ++ toString lockCount

/-- The counter map after `n` successive `Lock` attempts for `key` in one
process, starting from the empty map a process begins with. -/
def countersAfter (key : String) : Nat → LockCounterMap
  | 0 => []
  | n + 1 => (nextLockCount (countersAfter key n) key).2

/-- The `lockCount` used by attempt number `n` (0-based) for `key`. -/
def lockCountOfAttempt (key : String) (n : Nat) : Int :=
  (nextLockCount (countersAfter key n) key).1

/-- The sequence of `expires_at` values written for a row while its
heartbeat keeps succeeding: index 0 is the initial expiry written by the
acquisition put at `acquireNano`, and index `n + 1` is the value written by
the `n`-th renewal, which fires at `heartbeatTimes n`. -/
def writtenExpiry (acquireNano : Int) (heartbeatTimes : Nat → Int) :
    Nat → Int
  | 0 => initialExpiryNano acquireNano
  | n + 1 => heartbeatRenewalExpiryNano (heartbeatTimes n)

/-- A concrete configuration for concrete evaluations. -/
def sampleCfg : DistributedLockerConfig := { KeyColumn := "K", VersionColumn := "V" }

/-- A well-formed row for key `"k"` with version `"v"`, exactly as the
acquisition put writes it at time 0. -/
def sampleHeldItem : Item := lockAttributes sampleCfg "k" "v" "\x7b\x7d" none 0

/-- A well-formed row for key `"k"` held under version `"other"`. -/
def sampleOtherItem : Item := lockAttributes sampleCfg "k" "other" "\x7b\x7d" none 0

/-- A corrupt row: the version attribute is missing, so `parseLockData`
fails on it. -/
def sampleBadItem : Item :=
  [("K", .S "b"), (acquiredColumn, .N 0), (expiresColumn, .N 5000000000)]

end lock

/-- The numeric value of a decimal digit character (inverse of
`Nat.digitChar` below 10), used to state that decimal rendering of the
fencing counter is injective. -/
def charToDigit (c : Char) : Nat := c.toNat - 48

/-- Horner step for reading a digit string back into a number. -/
def digitStep (a : Nat) (c : Char) : Nat := 10 * a + charToDigit c

/-- Whether an `Except` result is a success (a nil Go error). -/
def exceptOk {E A : Type} : Except E A → Bool
  | .ok _ => true
  | .error _ => false

/-!
## Helper lemmas
-/

theorem mapLoad_mapStore_self {K V : Type} [DecidableEq K]
    (m : List (K × V)) (k : K) (v : V) :
    mapLoad (mapStore m k v) k = some v := by
  induction m with
  | nil => simp [mapStore, mapLoad]
  | cons kv rest ih =>
    obtain ⟨k', v'⟩ := kv
    by_cases h : k' = k <;> simp [mapStore, mapLoad, h, ih]

theorem mapLoad_mapStore_ne {K V : Type} [DecidableEq K]
    (m : List (K × V)) (k k' : K) (v : V) (h : k' ≠ k) :
    mapLoad (mapStore m k v) k' = mapLoad m k' := by
  induction m with
  | nil => simp [mapStore, mapLoad, Ne.symm h]
  | cons kv rest ih =>
    obtain ⟨k0, v0⟩ := kv
    by_cases h0 : k0 = k
    · subst h0
      simp [mapStore, mapLoad, Ne.symm h]
    · simp [mapStore, mapLoad, h0, ih]

theorem int32Wrap_def (z : Int) :
    lock.int32Wrap z = (z + 2147483648) % 4294967296 - 2147483648 := rfl

attribute [irreducible] lock.int32Wrap

theorem int32Wrap_shift (a b : Int) :
    lock.int32Wrap (lock.int32Wrap a + b) = lock.int32Wrap (a + b) := by
  simp only [int32Wrap_def]
  omega

theorem int32Wrap_shift_sub (a b : Int) :
    lock.int32Wrap (lock.int32Wrap a - b) = lock.int32Wrap (a - b) := by
  simp only [int32Wrap_def]
  omega

theorem int32Wrap_of_range (z : Int) (h1 : -2147483648 ≤ z)
    (h2 : z < 2147483648) : lock.int32Wrap z = z := by
  simp only [int32Wrap_def]
  omega

theorem countersAfter_load (key : String) (n : Nat) :
    mapLoad (lock.countersAfter key n) key =
      if n = 0 then none else some (lock.int32Wrap n) := by
  induction n with
  | zero => rfl
  | succ n ih =>
    have step : lock.countersAfter key (n + 1) =
        mapStore (lock.countersAfter key n) key
          (lock.int32Wrap
            ((mapLoad (lock.countersAfter key n) key).getD 0 + 1)) := rfl
    rw [step, mapLoad_mapStore_self, ih]
    by_cases h : n = 0
    · subst h
      rfl
    · have hc : ((n : Int) + 1) = ((n + 1 : Nat) : Int) := (Nat.cast_add_one n).symm
      rw [if_neg h, if_neg (Nat.succ_ne_zero n), Option.getD_some,
        int32Wrap_shift, hc]

theorem lockCountOfAttempt_eq (key : String) (n : Nat) :
    lock.lockCountOfAttempt key n = lock.int32Wrap n := by
  have step : lock.lockCountOfAttempt key n =
      lock.int32Wrap
        (lock.int32Wrap
          ((mapLoad (lock.countersAfter key n) key).getD 0 + 1) - 1) := rfl
  rw [step, countersAfter_load]
  by_cases h : n = 0
  · subst h
    rw [if_pos rfl, Option.getD_none, int32Wrap_def, int32Wrap_def,
      int32Wrap_def, Nat.cast_zero]
    norm_num
  · have hc : ((n : Int) + 1 - 1) = (n : Int) := by ring
    rw [if_neg h, Option.getD_some, int32Wrap_shift, int32Wrap_shift_sub, hc]

theorem exceptOk_map {E A B : Type} (f : A → B) (x : Except E A) :
    exceptOk (x.map f) = exceptOk x := by
  cases x <;> rfl

theorem transformSliceToMapAux_isOk {α K V E : Type} [DecidableEq K]
    (g : α → Except E (K × V)) (l : List α) :
    ∀ (idx : Nat) (out : List (K × V)),
      exceptOk (collections.transformSliceToMapAux (fun _ x => g x) l idx out) =
        l.all (fun x => exceptOk (g x)) := by
  induction l with
  | nil => intro idx out; rfl
  | cons x rest ih =>
    intro idx out
    simp only [collections.transformSliceToMapAux, List.all_cons]
    cases hx : g x with
    | error e => simp [exceptOk, hx]
    | ok kv =>
      obtain ⟨k, v⟩ := kv
      rw [ih]
      simp [exceptOk, hx]

theorem charToDigit_digitChar (d : Nat) (h : d < 10) :
    charToDigit (Nat.digitChar d) = d := by
  interval_cases d <;> decide

theorem toDigitsCore_foldl :
    ∀ (fuel n : Nat) (acc : List Char) (i : Nat), n < fuel →
      ∃ p, n < p ∧
        List.foldl digitStep i (Nat.toDigitsCore 10 fuel n acc) =
          List.foldl digitStep (i * p + n) acc := by
  intro fuel
  induction fuel with
  | zero =>
    intro n acc i h
    exact absurd h (Nat.not_lt_zero n)
  | succ f ih =>
    intro n acc i h
    have hunf : Nat.toDigitsCore 10 (f + 1) n acc =
        if n / 10 = 0 then Nat.digitChar (n % 10) :: acc
        else Nat.toDigitsCore 10 f (n / 10) (Nat.digitChar (n % 10) :: acc) := rfl
    rw [hunf]
    by_cases h0 : n / 10 = 0
    · rw [if_pos h0]
      refine ⟨10, by omega, ?_⟩
      have harg : digitStep i (Nat.digitChar (n % 10)) = i * 10 + n := by
        unfold digitStep
        rw [charToDigit_digitChar (n % 10) (Nat.mod_lt n (by norm_num))]
        omega
      rw [List.foldl_cons, harg]
    · rw [if_neg h0]
      have hf : n / 10 < f := by omega
      obtain ⟨p, hp, heq⟩ := ih (n / 10) (Nat.digitChar (n % 10) :: acc) i hf
      refine ⟨10 * p, by omega, ?_⟩
      have harg : digitStep (i * p + n / 10) (Nat.digitChar (n % 10)) =
          i * (10 * p) + n := by
        unfold digitStep
        rw [charToDigit_digitChar (n % 10) (Nat.mod_lt n (by norm_num))]
        have hdm : 10 * (n / 10) + n % 10 = n := Nat.div_add_mod n 10
        calc 10 * (i * p + n / 10) + n % 10
            = i * (10 * p) + (10 * (n / 10) + n % 10) := by ring
          _ = i * (10 * p) + n := by rw [hdm]
      rw [heq, List.foldl_cons, harg]

theorem foldl_toDigits (n : Nat) :
    List.foldl digitStep 0 (Nat.toDigits 10 n) = n := by
  obtain ⟨p, hp, heq⟩ := toDigitsCore_foldl (n + 1) n [] 0 (Nat.lt_succ_self n)
  have hdef : Nat.toDigits 10 n = Nat.toDigitsCore 10 (n + 1) n [] := rfl
  rw [hdef, heq]
  simp

theorem natRepr_inj {m n : Nat} (h : Nat.repr m = Nat.repr n) : m = n := by
  have hdata : Nat.toDigits 10 m = Nat.toDigits 10 n := congrArg String.data h
  have h1 := foldl_toDigits m
  rw [hdata, foldl_toDigits n] at h1
  exact h1.symm

theorem mkVersion_inj (lockerId : String) (m n : Nat)
    (h : lock.mkVersion lockerId (Int.ofNat m) =
      lock.mkVersion lockerId (Int.ofNat n)) : m = n := by
  unfold lock.mkVersion at h
  have hd := congrArg String.data h
  simp only [String.data_append] at hd
  have hd2 := List.append_cancel_left hd
  exact natRepr_inj (show Nat.repr m = Nat.repr n from String.ext hd2)

theorem lockPutCondition_eq_true_iff (cfg : lock.DistributedLockerConfig)
    (existing : Option lock.Item) (now : Int)
    (hwf : ∀ item, existing = some item →
      (mapLoad item cfg.KeyColumn).isSome = true) :
    lock.lockPutCondition cfg existing now = true ↔
      existing = none ∨ ∃ item e, existing = some item ∧
        mapLoad item lock.expiresColumn = some (.N e) ∧ e ≤ now := by
  cases existing with
  | none => simp [lock.lockPutCondition]
  | some item =>
    have hk : (mapLoad item cfg.KeyColumn).isNone = false := by
      have hs := hwf item rfl
      cases h : mapLoad item cfg.KeyColumn with
      | none => rw [h] at hs; cases hs
      | some kv => rfl
    simp only [lock.lockPutCondition, hk, Bool.false_or]
    cases hev : mapLoad item lock.expiresColumn with
    | none => simp [hev]
    | some av =>
      cases av with
      | S s => simp [hev]
      | N e => simp [hev]

theorem Lock_acquired_eq (cfg : lock.DistributedLockerConfig)
    (store : lock.Store) (key version metaJson : String)
    (logsUrl : Option String) (nowNano : Int)
    (hcond : lock.lockPutCondition cfg (mapLoad store key) nowNano = true) :
    lock.Lock cfg store key version metaJson logsUrl nowNano =
      .acquired
        (mapStore store key
          (lock.lockAttributes cfg key version metaJson logsUrl nowNano))
        { key := key, version := version,
          acquired := dateutils.TimeFromUnix nowNano,
          expires := GoTime.zero, logsUrl := logsUrl.getD "",
          metadata := metaJson, active := true } := by
  unfold lock.Lock
  rw [if_pos hcond]

theorem Lock_contended_eq (cfg : lock.DistributedLockerConfig)
    (store : lock.Store) (key version metaJson : String)
    (logsUrl : Option String) (nowNano : Int) (ex : lock.lockData)
    (hcond : lock.lockPutCondition cfg (mapLoad store key) nowNano = false)
    (hparse : lock.getExistingLock cfg store key nowNano = .ok ex) :
    lock.Lock cfg store key version metaJson logsUrl nowNano =
      .contended ex := by
  unfold lock.Lock
  rw [if_neg (by rw [hcond]; exact Bool.false_ne_true), hparse]

/-- C1: the conditional insert issued by `Lock` for `key` succeeds exactly
when either no row exists for the key or the existing row's expiry
timestamp (`expires_at`, the N value of the expires column) is less than or
equal to the current time; in particular, when a row for the key still
physically exists but its expiry is not after `nowNano`, `Lock` acquires
the lock.  The well-formedness hypothesis says the stored row carries its
own key attribute, which every row written by this code does. -/
theorem c1_conditional_insert_iff (cfg : lock.DistributedLockerConfig)
    (store : lock.Store) (key version metaJson : String)
    (logsUrl : Option String) (nowNano : Int)
    (hwf : ∀ item, mapLoad store key = some item →
      (mapLoad item cfg.KeyColumn).isSome = true) :
    (lock.lockPutCondition cfg (mapLoad store key) nowNano = true ↔
      mapLoad store key = none ∨
        ∃ item e, mapLoad store key = some item ∧
          mapLoad item lock.expiresColumn = some (.N e) ∧ e ≤ nowNano) ∧
    (∀ item e, mapLoad store key = some item →
      mapLoad item lock.expiresColumn = some (.N e) → e ≤ nowNano →
      ∃ s l, lock.Lock cfg store key version metaJson logsUrl nowNano =
        .acquired s l) := by
  constructor
  · exact lockPutCondition_eq_true_iff cfg (mapLoad store key) nowNano hwf
  · intro item e hrow hev hle
    have hcond : lock.lockPutCondition cfg (mapLoad store key) nowNano = true := by
      rw [lockPutCondition_eq_true_iff cfg (mapLoad store key) nowNano hwf]
      exact Or.inr ⟨item, e, hrow, hev, hle⟩
    exact ⟨_, _, Lock_acquired_eq cfg store key version metaJson logsUrl nowNano hcond⟩

/-- Witness for C1: with a store still physically holding the row written
by another holder at time 0 (expiry 20 s), an acquisition at exactly the
expiry instant succeeds. -/
theorem c1_witness :
    ∃ s l, lock.Lock lock.sampleCfg [("k", lock.sampleOtherItem)] "k" "vw"
      "\x7b\x7d" none 20000000000 = .acquired s l :=
  (c1_conditional_insert_iff lock.sampleCfg [("k", lock.sampleOtherItem)]
      "k" "vw" "\x7b\x7d" none 20000000000
      (fun item h => by
        rw [show mapLoad [("k", lock.sampleOtherItem)] "k" =
          some lock.sampleOtherItem from rfl] at h
        cases h
        decide)).2
    lock.sampleOtherItem 20000000000 (by rfl) (by decide) (by decide)

theorem conditionalSetExpires_some (cfg : lock.DistributedLockerConfig)
    (store : lock.Store) (key v : String) (e : Int) (item : lock.Item)
    (hrow : mapLoad store key = some item) :
    lock.conditionalSetExpires cfg store key v e =
      if lock.versionGuard cfg (some item) v then
        some (mapStore store key (mapStore item lock.expiresColumn (.N e)))
      else none := by
  unfold lock.conditionalSetExpires
  rw [hrow]

theorem conditionalSetExpires_none_absent (cfg : lock.DistributedLockerConfig)
    (store : lock.Store) (key v : String) (e : Int)
    (hrow : mapLoad store key = none) :
    lock.conditionalSetExpires cfg store key v e = none := by
  unfold lock.conditionalSetExpires
  rw [hrow]

theorem versionGuard_of_load (cfg : lock.DistributedLockerConfig)
    (item : lock.Item) (v v' : String)
    (h : mapLoad item cfg.VersionColumn = some (.S v')) :
    lock.versionGuard cfg (some item) v = (v' == v) := by
  simp only [lock.versionGuard, h]

theorem conditionalSetExpires_isSome_iff (cfg : lock.DistributedLockerConfig)
    (store : lock.Store) (key v : String) (e : Int) :
    (lock.conditionalSetExpires cfg store key v e).isSome = true ↔
      ∃ item, mapLoad store key = some item ∧
        mapLoad item cfg.VersionColumn = some (.S v) := by
  cases hrow : mapLoad store key with
  | none =>
    rw [conditionalSetExpires_none_absent cfg store key v e hrow]
    simp [hrow]
  | some item =>
    rw [conditionalSetExpires_some cfg store key v e item hrow]
    by_cases hg : lock.versionGuard cfg (some item) v = true
    · rw [if_pos hg]
      simp only [Option.isSome_some, true_iff]
      refine ⟨item, rfl, ?_⟩
      cases hvv : mapLoad item cfg.VersionColumn with
      | none =>
        simp only [lock.versionGuard, hvv] at hg
        exact (Bool.false_ne_true hg).elim
      | some av =>
        cases av with
        | N x =>
          simp only [lock.versionGuard, hvv] at hg
          exact (Bool.false_ne_true hg).elim
        | S v2 =>
          simp only [lock.versionGuard, hvv, beq_iff_eq] at hg
          rw [hg]
    · rw [if_neg hg]
      simp only [Option.isSome_none, Bool.false_eq_true, false_iff]
      rintro ⟨item2, hrow2, hver2⟩
      injection hrow2 with hi
      subst hi
      apply hg
      rw [versionGuard_of_load cfg item v v hver2]
      exact beq_self_eq_true v

/-- C2: a heartbeat renewal or an `Unlock` mutates the stored row only when
the row's version (fencing token) still equals the token the handle was
issued (first conjunct: the guarded update writes something exactly when
the row carries that version).  Under the hypotheses that the row now
carries a different holder's version `v'`, the guarded update writes
nothing (second conjunct), a heartbeat renewal attempt by the stale handle
exits with the lock-lost error built from the read-back row and cancels the
passthrough context (third conjunct), and an `Unlock` by the stale handle
leaves the store unchanged and returns the not-currently-locked error
(fourth conjunct) — neither ever silently succeeds. -/
theorem c2_fencing_guard (cfg : lock.DistributedLockerConfig)
    (store : lock.Store) (key : String) (item : lock.Item) (v v' : String)
    (nowNano : Int) (hbErr : Option lock.HeartbeatError)
    (hrow : mapLoad store key = some item)
    (hver : mapLoad item cfg.VersionColumn = some (.S v'))
    (hne : v' ≠ v) :
    (∀ e, (lock.conditionalSetExpires cfg store key v e).isSome = true ↔
      ∃ it, mapLoad store key = some it ∧
        mapLoad it cfg.VersionColumn = some (.S v)) ∧
    (∀ e, lock.conditionalSetExpires cfg store key v e = none) ∧
    (∀ ex, lock.getExistingLock cfg store key nowNano = .ok ex →
      lock.heartbeatIteration cfg store key v false true none none nowNano =
        .exit (some (.lockLost ex)) ∧
      lock.passthroughCancelled (some (.lockLost ex)) = true) ∧
    lock.Unlock cfg store key v nowNano hbErr = (store, .notCurrentlyLocked) := by
  have hnone : ∀ e, lock.conditionalSetExpires cfg store key v e = none := by
    intro e
    rw [conditionalSetExpires_some cfg store key v e item hrow,
      versionGuard_of_load cfg item v v' hver,
      beq_eq_false_iff_ne.mpr hne, if_neg Bool.false_ne_true]
  refine ⟨?_, hnone, ?_, ?_⟩
  · intro e
    exact conditionalSetExpires_isSome_iff cfg store key v e
  · intro ex hex
    refine ⟨?_, rfl⟩
    unfold lock.heartbeatIteration
    rw [hnone, hex]
    rfl
  · unfold lock.Unlock
    rw [hnone]

/-- Witness for C2: the sample row for key `"k"` is held under version
`"other"`; an `Unlock` with the stale handle token `"v"` leaves the store
unchanged and reports not-currently-locked. -/
theorem c2_witness :
    lock.Unlock lock.sampleCfg [("k", lock.sampleOtherItem)] "k" "v" 5 none =
      ([("k", lock.sampleOtherItem)], .notCurrentlyLocked) :=
  (c2_fencing_guard lock.sampleCfg [("k", lock.sampleOtherItem)] "k"
    lock.sampleOtherItem "v" "other" 5 none (by rfl) (by decide)
    (by decide)).2.2.2

/-- C3: whenever the conditional insert of `Lock` fails its condition (the
`ConditionalCheckFailedException` path) and the read-back of the current
row decodes successfully, `Lock` returns the decoded row as the
existing-lock result: the `contended` outcome, which is the
`(ctx, nil, existingLock, nil)` return — a nil new-lock handle and a nil
error, contention reported as data. -/
theorem c3_contention_returned_as_data (cfg : lock.DistributedLockerConfig)
    (store : lock.Store) (key version metaJson : String)
    (logsUrl : Option String) (nowNano : Int) (ex : lock.lockData)
    (hfail : lock.lockPutCondition cfg (mapLoad store key) nowNano = false)
    (hparse : lock.getExistingLock cfg store key nowNano = .ok ex) :
    lock.Lock cfg store key version metaJson logsUrl nowNano =
      .contended ex :=
  Lock_contended_eq cfg store key version metaJson logsUrl nowNano ex
    hfail hparse

/-- Witness for C3: against the sample store holding an active row for
`"k"`, a Lock attempt at time 5 is contended and returns the decoded
existing row. -/
theorem c3_witness :
    ∃ ex, lock.getExistingLock lock.sampleCfg [("k", lock.sampleOtherItem)]
        "k" 5 = .ok ex ∧
      lock.Lock lock.sampleCfg [("k", lock.sampleOtherItem)] "k" "vw"
        "\x7b\x7d" none 5 = .contended ex :=
  ⟨_, rfl, c3_contention_returned_as_data lock.sampleCfg
    [("k", lock.sampleOtherItem)] "k" "vw" "\x7b\x7d" none 5 _
    (by decide) rfl⟩

/-- C4: the heartbeat renewal writes `time.Now().Add(heartbeatInterval)`,
i.e. the wake time plus half the lease duration — not the wake time plus
the lease duration.  In the spec scenario (lease 20 s, heartbeat firing at
t = 10 s) the row expiry is renewed to 20 s, not 30 s, so the claim's
renewal value disagrees with the code: the conjuncts below evaluate the
renewal expression and the heartbeat iteration at that failing input. -/
theorem c4_renewal_adds_half_interval :
    (∀ t : Int, lock.heartbeatRenewalExpiryNano t =
      t + lock.heartbeatIntervalNano) ∧
    lock.heartbeatIntervalNano = lock.lockDurationNano / 2 ∧
    lock.heartbeatRenewalExpiryNano 10000000000 = 20000000000 ∧
    lock.heartbeatRenewalExpiryNano 10000000000 ≠
      10000000000 + lock.lockDurationNano ∧
    lock.heartbeatIteration lock.sampleCfg [("k", lock.sampleHeldItem)]
        "k" "v" false true none none 10000000000 =
      .renewed [("k", mapStore lock.sampleHeldItem lock.expiresColumn
        (.N 20000000000))] := by
  refine ⟨fun t => rfl, rfl, by decide, by decide, by decide⟩

theorem Lock_not_acquired (cfg : lock.DistributedLockerConfig)
    (store : lock.Store) (key version metaJson : String)
    (logsUrl : Option String) (nowNano : Int)
    (hcond : lock.lockPutCondition cfg (mapLoad store key) nowNano = false) :
    ∀ s nl, lock.Lock cfg store key version metaJson logsUrl nowNano ≠
      .acquired s nl := by
  intro s nl
  unfold lock.Lock
  rw [if_neg (by rw [hcond]; exact Bool.false_ne_true)]
  cases hex : lock.getExistingLock cfg store key nowNano with
  | ok ex => simp
  | error er => simp

theorem parseLockData_expires_active (cfg : lock.DistributedLockerConfig)
    (nowNano : Int) (item : lock.Item) (ex : lock.lockData) (e : Int)
    (h : lock.parseLockData cfg nowNano item = .ok ex)
    (hexp : mapLoad item lock.expiresColumn = some (.N e)) :
    ex.expires = dateutils.TimeFromUnix e ∧
      ex.active =
        (dateutils.TimeFromUnix e).after (GoTime.fromUnixNano nowNano) := by
  unfold lock.parseLockData at h
  split at h
  · exact Except.noConfusion h
  · split at h
    · exact Except.noConfusion h
    · split at h
      · exact Except.noConfusion h
      · split at h
        · exact Except.noConfusion h
        · split at h
          · exact Except.noConfusion h
          · split at h
            · exact Except.noConfusion h
            · split at h
              · exact Except.noConfusion h
              · rename_i expiresValue hval
                split at h
                · exact Except.noConfusion h
                · rename_i expiresUnixNano hunm
                  rw [hval] at hexp
                  injection hexp with hev
                  subst hev
                  simp only [lock.unmarshalInt] at hunm
                  injection hunm with he
                  subst he
                  injection h with hrec
                  rw [← hrec]
                  exact ⟨rfl, rfl⟩

/-- C10: the `lockData` built for a freshly acquired lock leaves the
`expires` field at the zero time value and fixes `active := true` at
creation; both accessors return those stored fields unchanged forever
after (the record is immutable).  `Expires()` is populated only on a
`lockData` decoded from an existing row, where it is
`TimeFromUnix` of the stored expiry and `active` is the comparison of that
expiry with the read-time clock. -/
theorem c10_new_lock_accessors (cfg : lock.DistributedLockerConfig)
    (store : lock.Store) (key version metaJson : String)
    (logsUrl : Option String) (nowNano parseNowNano : Int) (s : lock.Store)
    (nl : lock.lockData) (item : lock.Item) (ex : lock.lockData) (e : Int)
    (hacq : lock.Lock cfg store key version metaJson logsUrl nowNano =
      .acquired s nl)
    (hparse : lock.parseLockData cfg parseNowNano item = .ok ex)
    (hexp : mapLoad item lock.expiresColumn = some (.N e)) :
    nl.expires = GoTime.zero ∧ nl.active = true ∧
      ex.expires = dateutils.TimeFromUnix e ∧
      ex.active =
        (dateutils.TimeFromUnix e).after (GoTime.fromUnixNano parseNowNano) := by
  have hfields :=
    parseLockData_expires_active cfg parseNowNano item ex e hparse hexp
  by_cases hcond : lock.lockPutCondition cfg (mapLoad store key) nowNano = true
  · have heq :=
      Lock_acquired_eq cfg store key version metaJson logsUrl nowNano hcond
    rw [heq] at hacq
    injection hacq with hs hnl
    exact ⟨by rw [← hnl], by rw [← hnl], hfields.1, hfields.2⟩
  · have hfalse : lock.lockPutCondition cfg (mapLoad store key) nowNano = false :=
      Bool.eq_false_iff.mpr hcond
    exact absurd hacq
      (Lock_not_acquired cfg store key version metaJson logsUrl nowNano
        hfalse s nl)

/-- Witness for C10: a fresh acquisition on the empty store and a decode of
the sample row, at concrete times. -/
theorem c10_witness :
    ∃ s nl ex,
      lock.Lock lock.sampleCfg [] "k" "v" "\x7b\x7d" none 0 =
        .acquired s nl ∧
      lock.parseLockData lock.sampleCfg 5 lock.sampleOtherItem = .ok ex ∧
      (nl.expires = GoTime.zero ∧ nl.active = true ∧
        ex.expires = dateutils.TimeFromUnix 20000000000 ∧
        ex.active =
          (dateutils.TimeFromUnix 20000000000).after (GoTime.fromUnixNano 5)) :=
  ⟨_, _, _, rfl, rfl,
    c10_new_lock_accessors lock.sampleCfg [] "k" "v" "\x7b\x7d" none 0 5
      _ _ lock.sampleOtherItem _ 20000000000 rfl rfl (by decide)⟩

/-- Counterexample for C5: a two-row table where the row for `"k"` decodes
fine and the row for `"b"` is missing its version attribute.  The whole
scan returns the decode error, so the decodable row is not returned: one
corrupt row does block the others, refuting the claim that a decode
failure is isolated per-row and not fatal to the scan. -/
theorem c5_counterexample :
    exceptOk (lock.parseLockData lock.sampleCfg 0 lock.sampleHeldItem) = true ∧
    lock.getLocks lock.sampleCfg
        [("k", lock.sampleHeldItem), ("b", lock.sampleBadItem)]
        lock.lockType.all 0 =
      .error "No version field in existing lock row" := by
  exact ⟨by decide, by rfl⟩

/-- C5 (amended): in a scan-based lock listing, a row that fails to decode
is fatal to the whole scan: `getLocks` threads the per-row decode through
`TransformSliceToMapWithErr`, which aborts on the first error, so the call
returns only the decode error and none of the remaining rows. -/
theorem c5_decode_failure_aborts_scan (cfg : lock.DistributedLockerConfig)
    (store : lock.Store) (nowNano : Int) (item : lock.Item)
    (hmem : item ∈ store.map Prod.snd)
    (hbad : exceptOk (lock.parseLockData cfg nowNano item) = false) :
    ∃ msg, lock.getLocks cfg store lock.lockType.all nowNano = .error msg := by
  have hfilter : (store.map Prod.snd).filter
      (lock.scanFilter lock.lockType.all nowNano) = store.map Prod.snd := by
    apply List.filter_eq_self.mpr
    intro a ha
    rfl
  have hnotall : (store.map Prod.snd).all
      (fun it => exceptOk
        ((lock.parseLockData cfg nowNano it).map (fun l => (l.key, l)))) =
      false := by
    cases hall : (store.map Prod.snd).all
        (fun it => exceptOk
          ((lock.parseLockData cfg nowNano it).map (fun l => (l.key, l)))) with
    | false => rfl
    | true =>
      have hitem := List.all_eq_true.mp hall item hmem
      rw [exceptOk_map, hbad] at hitem
      cases hitem
  have hok : exceptOk (lock.getLocks cfg store lock.lockType.all nowNano) =
      false := by
    simp only [lock.getLocks]
    unfold collections.TransformSliceToMapWithErr
    rw [hfilter]
    rw [transformSliceToMapAux_isOk
      (fun it => (lock.parseLockData cfg nowNano it).map (fun l => (l.key, l)))
      (store.map Prod.snd) 0 []]
    exact hnotall
  cases hres : lock.getLocks cfg store lock.lockType.all nowNano with
  | ok x =>
    rw [hres] at hok
    simp [exceptOk] at hok
  | error msg => exact ⟨msg, rfl⟩

/-- Witness for C5's amended statement at the concrete two-row table. -/
theorem c5_witness :
    ∃ msg, lock.getLocks lock.sampleCfg
        [("k", lock.sampleHeldItem), ("b", lock.sampleBadItem)]
        lock.lockType.all 0 =
      .error msg :=
  c5_decode_failure_aborts_scan lock.sampleCfg
    [("k", lock.sampleHeldItem), ("b", lock.sampleBadItem)] 0
    lock.sampleBadItem (by decide) (by decide)

/-- Counterexample for C6: the sample row is held under version `"v"`; the
first `Unlock` succeeds (pushing the expiry to 5) and, because `Unlock`
never changes or deletes the version, the second `Unlock` at time 6 passes
the version guard again and returns `released` — not the
not-currently-locked (Release Conflict) error the claim requires. -/
theorem c6_counterexample :
    (lock.Unlock lock.sampleCfg [("k", lock.sampleHeldItem)] "k" "v" 5
        none).2 = .released none ∧
    (lock.Unlock lock.sampleCfg
        (lock.Unlock lock.sampleCfg [("k", lock.sampleHeldItem)] "k" "v" 5
          none).1 "k" "v" 6 none).2 = .released none ∧
    (lock.Unlock lock.sampleCfg
        (lock.Unlock lock.sampleCfg [("k", lock.sampleHeldItem)] "k" "v" 5
          none).1 "k" "v" 6 none).2 ≠ .notCurrentlyLocked := by
  exact ⟨by decide, by decide, by decide⟩

/-- C6 (amended): as long as the row still carries the handle's version —
in particular after this handle's own earlier successful `Unlock`, which
only rewrites the expiry — a second `Unlock` silently succeeds again,
returning the heartbeat error (nil for a cleanly exited heartbeat); the
not-currently-locked error is returned only when the row's version no
longer matches the handle's token.  The hypothesis that the version column
differs from the expires column is part of any sane table configuration. -/
theorem c6_second_unlock_silently_succeeds
    (cfg : lock.DistributedLockerConfig) (store : lock.Store)
    (key v : String) (item : lock.Item) (now1 now2 : Int)
    (hb : Option lock.HeartbeatError)
    (hrow : mapLoad store key = some item)
    (hver : mapLoad item cfg.VersionColumn = some (.S v))
    (hcols : cfg.VersionColumn ≠ lock.expiresColumn) :
    (lock.Unlock cfg store key v now1 hb).2 = .released hb ∧
    (lock.Unlock cfg (lock.Unlock cfg store key v now1 hb).1 key v now2
      hb).2 = .released hb := by
  have hset1 : lock.conditionalSetExpires cfg store key v now1 =
      some (mapStore store key
        (mapStore item lock.expiresColumn (.N now1))) := by
    rw [conditionalSetExpires_some cfg store key v now1 item hrow,
      versionGuard_of_load cfg item v v hver, if_pos (beq_self_eq_true v)]
  have hu1 : lock.Unlock cfg store key v now1 hb =
      (mapStore store key (mapStore item lock.expiresColumn (.N now1)),
        .released hb) := by
    unfold lock.Unlock
    rw [hset1]
  have hrow2 : mapLoad
      (mapStore store key (mapStore item lock.expiresColumn (.N now1)))
      key = some (mapStore item lock.expiresColumn (.N now1)) :=
    mapLoad_mapStore_self store key (mapStore item lock.expiresColumn (.N now1))
  have hver2 : mapLoad (mapStore item lock.expiresColumn (.N now1))
      cfg.VersionColumn = some (.S v) := by
    rw [mapLoad_mapStore_ne item lock.expiresColumn cfg.VersionColumn
      (.N now1) hcols]
    exact hver
  have hset2 : lock.conditionalSetExpires cfg
      (mapStore store key (mapStore item lock.expiresColumn (.N now1)))
      key v now2 =
      some (mapStore
        (mapStore store key (mapStore item lock.expiresColumn (.N now1)))
        key (mapStore (mapStore item lock.expiresColumn (.N now1))
          lock.expiresColumn (.N now2))) := by
    rw [conditionalSetExpires_some cfg _ key v now2 _ hrow2,
      versionGuard_of_load cfg _ v v hver2, if_pos (beq_self_eq_true v)]
  constructor
  · rw [hu1]
  · rw [hu1]
    unfold lock.Unlock
    rw [hset2]

/-- Witness for C6's amended statement: both Unlock calls on the sample
held row report success. -/
theorem c6_witness :
    (lock.Unlock lock.sampleCfg [("k", lock.sampleHeldItem)] "k" "v" 5
        none).2 = .released none ∧
    (lock.Unlock lock.sampleCfg
        (lock.Unlock lock.sampleCfg [("k", lock.sampleHeldItem)] "k" "v" 5
          none).1 "k" "v" 6 none).2 = .released none :=
  c6_second_unlock_silently_succeeds lock.sampleCfg
    [("k", lock.sampleHeldItem)] "k" "v" lock.sampleHeldItem 5 6 none
    (by decide) (by decide) (by decide)

/-- C7: the passthrough context returned by a successful `Lock` is
cancelled exactly when the heartbeat exits with an error.  When a renewal
hits a conditional-check failure (lease loss) and the read-back decodes,
the heartbeat exits with the lock-lost error and the passthrough context is
cancelled; when the unlock context is done (a voluntary `Unlock`) and the
caller's original context is itself uncancelled (`ctx.Err()` nil, so
`stackerr.Wrap` of it is nil), the heartbeat exits cleanly and the
passthrough context is not cancelled, whatever the locked flag holds; and a
renewal failing with a store error other than a conditional-check failure
exits with that error wrapped as-is — a `storeFault`, not the lock-lost
error. -/
theorem c7_passthrough_cancellation (cfg : lock.DistributedLockerConfig)
    (store : lock.Store) (key version : String) (nowNano : Int)
    (ex : lock.lockData) (lockedFlag : Bool) (e : String)
    (hccf : lock.conditionalSetExpires cfg store key version
      (lock.heartbeatRenewalExpiryNano nowNano) = none)
    (hread : lock.getExistingLock cfg store key nowNano = .ok ex) :
    (lock.heartbeatIteration cfg store key version false true none none
        nowNano = .exit (some (.lockLost ex)) ∧
      lock.passthroughCancelled (some (.lockLost ex)) = true) ∧
    (lock.heartbeatIteration cfg store key version true lockedFlag none none
        nowNano = .exit none ∧
      lock.passthroughCancelled none = false) ∧
    lock.heartbeatIteration cfg store key version false true none (some e)
        nowNano = .exit (some (.storeFault e)) := by
  refine ⟨⟨?_, rfl⟩, ⟨?_, rfl⟩, ?_⟩
  · unfold lock.heartbeatIteration
    rw [hccf, hread]
    rfl
  · unfold lock.heartbeatIteration
    cases lockedFlag <;> rfl
  · rfl

/-- Witness for C7: the sample row is held by `"other"`, so a renewal by
the stale token `"v"` conditionally fails and the read-back decodes. -/
theorem c7_witness :
    ∃ ex,
      lock.getExistingLock lock.sampleCfg [("k", lock.sampleOtherItem)] "k" 7 =
        .ok ex ∧
      ((lock.heartbeatIteration lock.sampleCfg [("k", lock.sampleOtherItem)]
          "k" "v" false true none none 7 = .exit (some (.lockLost ex)) ∧
        lock.passthroughCancelled (some (.lockLost ex)) = true) ∧
      (lock.heartbeatIteration lock.sampleCfg [("k", lock.sampleOtherItem)]
          "k" "v" true true none none 7 = .exit none ∧
        lock.passthroughCancelled none = false) ∧
      lock.heartbeatIteration lock.sampleCfg [("k", lock.sampleOtherItem)]
          "k" "v" false true none (some "network timeout") 7 =
        .exit (some (.storeFault "network timeout"))) :=
  ⟨_, rfl, c7_passthrough_cancellation lock.sampleCfg
    [("k", lock.sampleOtherItem)] "k" "v" 7 _ true "network timeout"
    (by decide) rfl⟩

/-- C8: while the heartbeat keeps succeeding, the sequence of `expires_at`
values written for the row — the initial expiry of acquisition time plus
the lease duration, followed by each renewal's value of wake time plus the
heartbeat interval — is monotonically non-decreasing.  The hypotheses are
the timer's guarantees: the first wake is at least one heartbeat interval
after acquisition and consecutive wakes are at least one interval apart. -/
theorem c8_written_expiry_monotone (t0 : Int) (hb : Nat → Int)
    (h0 : t0 + lock.heartbeatIntervalNano ≤ hb 0)
    (hstep : ∀ n, hb n + lock.heartbeatIntervalNano ≤ hb (n + 1)) :
    ∀ m n, m ≤ n →
      lock.writtenExpiry t0 hb m ≤ lock.writtenExpiry t0 hb n := by
  have hstep1 : ∀ k, lock.writtenExpiry t0 hb k ≤
      lock.writtenExpiry t0 hb (k + 1) := by
    intro k
    cases k with
    | zero =>
      show lock.initialExpiryNano t0 ≤ lock.heartbeatRenewalExpiryNano (hb 0)
      unfold lock.initialExpiryNano lock.heartbeatRenewalExpiryNano
      unfold lock.heartbeatIntervalNano lock.lockDurationNano at h0 ⊢
      omega
    | succ k =>
      show lock.heartbeatRenewalExpiryNano (hb k) ≤
        lock.heartbeatRenewalExpiryNano (hb (k + 1))
      have hs := hstep k
      unfold lock.heartbeatRenewalExpiryNano
      unfold lock.heartbeatIntervalNano lock.lockDurationNano at hs ⊢
      omega
  intro m n hmn
  induction n with
  | zero =>
    have hm0 : m = 0 := Nat.le_zero.mp hmn
    subst hm0
    exact le_refl _
  | succ n ihn =>
    by_cases hm : m = n + 1
    · subst hm
      exact le_refl _
    · have hmn2 : m ≤ n := by omega
      exact le_trans (ihn hmn2) (hstep1 n)

/-- Witness for C8: heartbeats firing exactly every 10 s after an
acquisition at time 0. -/
theorem c8_witness :
    lock.writtenExpiry 0 (fun k => ((k : Int) + 1) * 10000000000) 0 ≤
      lock.writtenExpiry 0 (fun k => ((k : Int) + 1) * 10000000000) 2 :=
  c8_written_expiry_monotone 0 (fun k => ((k : Int) + 1) * 10000000000)
    (by simp only [lock.heartbeatIntervalNano, lock.lockDurationNano]; omega)
    (fun n => by
      simp only [lock.heartbeatIntervalNano, lock.lockDurationNano]
      push_cast
      ring_nf
      omega)
    0 2 (by omega)

/-- Counterexample for C9: the per-key counter is an `atomic.Int32`, so its
value wraps.  Attempt number 2147483647 (0-based) for a key carries the
sequence number 2147483647, but the very next attempt carries -2147483648:
the sequence numbers of two attempts on the same key are not strictly
increasing, refuting the claim as stated for all pairs of attempts. -/
theorem c9_counterexample :
    lock.lockCountOfAttempt "k" 2147483647 = 2147483647 ∧
    lock.lockCountOfAttempt "k" 2147483648 = -2147483648 ∧
    ¬ lock.lockCountOfAttempt "k" 2147483647 <
      lock.lockCountOfAttempt "k" 2147483648 := by
  have h1 : lock.lockCountOfAttempt "k" 2147483647 = 2147483647 := by
    rw [lockCountOfAttempt_eq, int32Wrap_def]
    norm_num
  have h2 : lock.lockCountOfAttempt "k" 2147483648 = -2147483648 := by
    rw [lockCountOfAttempt_eq, int32Wrap_def]
    norm_num
  refine ⟨h1, h2, ?_⟩
  rw [h1, h2]
  norm_num

/-- C9 (amended): the fencing token has the form `lockerId-lockCount`; the
per-key counter is created lazily on first use and incremented by one (as a
32-bit value) on every local acquisition attempt for that key, so for any
two attempts on the same key, as long as the later attempt number is below
2^31 (i.e. the int32 counter has not wrapped), the two tokens carry
strictly increasing sequence numbers and are distinct strings. -/
theorem c9_tokens_increase_before_wrap (key lockerId : String) (m n : Nat)
    (hmn : m < n) (hn : n < 2147483648) :
    lock.lockCountOfAttempt key m < lock.lockCountOfAttempt key n ∧
    lock.mkVersion lockerId (lock.lockCountOfAttempt key m) ≠
      lock.mkVersion lockerId (lock.lockCountOfAttempt key n) := by
  have hm' : lock.lockCountOfAttempt key m = (m : Int) := by
    rw [lockCountOfAttempt_eq]
    exact int32Wrap_of_range _ (by omega) (by omega)
  have hn' : lock.lockCountOfAttempt key n = (n : Int) := by
    rw [lockCountOfAttempt_eq]
    exact int32Wrap_of_range _ (by omega) (by omega)
  constructor
  · rw [hm', hn']
    exact_mod_cast hmn
  · rw [hm', hn']
    intro hcontra
    have heq := mkVersion_inj lockerId m n hcontra
    omega

/-- Witness for C9's amended statement: attempts 1 and 2 on key `"k"`. -/
theorem c9_witness :
    lock.lockCountOfAttempt "k" 1 < lock.lockCountOfAttempt "k" 2 ∧
    lock.mkVersion "local/r" (lock.lockCountOfAttempt "k" 1) ≠
      lock.mkVersion "local/r" (lock.lockCountOfAttempt "k" 2) :=
  c9_tokens_increase_before_wrap "k" "local/r" 1 2 (by omega) (by omega)
